import Mathlib

/-!
# Verification of `check_hera_updates.py`

A shallow embedding of `.github/scripts/check_hera_updates.py`, the single
source file of the `eu-health-alerts` repository, together with theorems
settling the specification's claims about it.

The script is a linear pipeline: load a JSON state file, fetch RSS entries,
diff against previously seen ids, merge ids into a bounded rolling window,
save the state, and emit outputs.  Each definition below is translated
directly from the Python source; line references point into the script.
-/

/-- A normalized feed entry, as built by `fetch_entries` (lines 28-37 of the
script): four string fields `id`, `title`, `link`, `published`. -/
structure Entry where
  id : String
  title : String
  link : String
  published : String
deriving Repr, DecidableEq

/-- The persisted state record: `{"ids": [...], "last_checked_iso": ...}`
(see `load_state`, line 13, and `main`, lines 73-74). -/
structure State where
  ids : List String
  last_checked_iso : Option String
deriving Repr, DecidableEq

/-- `MAX_STORE = 200` (line 59): cap on stored ids. -/
def MAX_STORE : Nat := 200

/-- The list `[e["id"] for e in entries]` (line 70). -/
def entryIds (entries : List Entry) : List String :=
  entries.map Entry.id

/-- Line 63: `new_entries = [e for e in entries if e["id"] and e["id"] not in
prev_ids]`.  Python truthiness of a string is non-emptiness; `prev_ids` is
`set(state.get("ids", []))`, whose membership agrees with membership in the
stored list. -/
def newEntries (entries : List Entry) (prev_ids : List String) : List Entry :=
  entries.filter (fun e => decide (e.id ≠ "") && decide (e.id ∉ prev_ids))

/-- Line 66: `has_updates = bool(new_entries) and (bool(prev_ids) or
NOTIFY_ON_FIRST_RUN)`.  `bool` of a list/set is its non-emptiness, and
`set(ids)` is non-empty exactly when the list `ids` is. -/
def hasUpdates (entries : List Entry) (prev_ids : List String)
    (notifyOnFirstRun : Bool) : Bool :=
  !(newEntries entries prev_ids).isEmpty &&
    (!prev_ids.isEmpty || notifyOnFirstRun)

/-- Lines 70-71: `merged_ids = [e["id"] for e in entries] + [i for i in
state.get("ids", []) if i not in {e["id"] for e in entries}]` followed by
`merged_ids = merged_ids[:MAX_STORE]`. -/
def mergedIds (entries : List Entry) (prev_ids : List String) : List String :=
  (entryIds entries ++
    prev_ids.filter (fun i => decide (i ∉ entryIds entries))).take MAX_STORE

/-- Line 72: `new_state_changed = merged_ids != state.get("ids", [])`
(order-sensitive list comparison). -/
def stateChanged (entries : List Entry) (prev_ids : List String) : Bool :=
  decide (mergedIds entries prev_ids ≠ prev_ids)

/-- Lines 73-74: `state["ids"] = merged_ids; state["last_checked_iso"] = now`
— the state value passed to `save_state`. -/
def updateState (entries : List Entry) (st : State) (now : String) : State :=
  { ids := mergedIds entries st.ids, last_checked_iso := some now }

/-- Concrete 500-entry feed used to instantiate the boundary case of the
rolling-window claim. -/
def ents500 : List Entry :=
  (List.range 500).map (fun n => ⟨toString n, "", "", ""⟩)

/-- Concrete 200-id prior state, disjoint from `ents500`'s ids. -/
def prev200 : List String :=
  (List.range 200).map (fun n => toString (1000 + n))

/-- Claim C1: the merged id list equals this run's entry ids in fetch order,
followed by the prior ids not among this run's entry ids, truncated to the
first 200; its length is at most 200 for any inputs; and with 500 fetched
entries and 200 prior ids exactly 200 ids are stored, all taken from the
current fetch. -/
theorem mergedIds_spec (entries : List Entry) (prev : List String) :
    mergedIds entries prev =
      (entries.map Entry.id ++
        prev.filter (fun i => decide (i ∉ entries.map Entry.id))).take 200 ∧
    (mergedIds entries prev).length ≤ 200 ∧
    (entries.length = 500 → prev.length = 200 →
      (mergedIds entries prev).length = 200 ∧
      ∀ x ∈ mergedIds entries prev, x ∈ entries.map Entry.id) := by
  refine ⟨rfl, ?_, ?_⟩
  · simp [mergedIds, MAX_STORE]
  · intro h500 _
    have hlen : 200 ≤ (entryIds entries).length := by
      simp [entryIds, h500]
    have htake : mergedIds entries prev = (entryIds entries).take 200 := by
      simp only [mergedIds, MAX_STORE]
      exact List.take_append_of_le_length hlen
    constructor
    · rw [htake, List.length_take]
      omega
    · intro x hx
      rw [htake] at hx
      exact List.take_subset 200 (entryIds entries) hx

/-- Boundary instance: 500 fetched entries and 200 prior ids give exactly
200 stored ids, all from the current fetch. -/
theorem mergedIds_spec_witness :
    (mergedIds ents500 prev200).length = 200 ∧
    ∀ x ∈ mergedIds ents500 prev200, x ∈ ents500.map Entry.id :=
  (mergedIds_spec ents500 prev200).2.2 (by simp [ents500]) (by simp [prev200])

/-- Claim C2: `new_entries` is exactly the order-preserving subsequence of the
fetched entries whose id is non-empty and not previously seen; an entry with
empty id is never in it. -/
theorem newEntries_spec (entries : List Entry) (prev : List String) :
    newEntries entries prev =
      entries.filter (fun e => decide (e.id ≠ "" ∧ e.id ∉ prev)) ∧
    (newEntries entries prev).Sublist entries ∧
    ∀ e ∈ newEntries entries prev, e.id ≠ "" ∧ e.id ∉ prev := by
  refine ⟨?_, List.filter_sublist _, ?_⟩
  · simp [newEntries]
  · intro e he
    have := List.of_mem_filter he
    simpa using this

/-- Claim C3: `has_updates` is true exactly when there are new entries and either
there were previously seen ids or the first-run-notify flag is set; in
particular it is false on a first run with the flag unset. -/
theorem hasUpdates_spec (entries : List Entry) (prev : List String)
    (flag : Bool) :
    (hasUpdates entries prev flag = true ↔
      (newEntries entries prev ≠ [] ∧ (prev ≠ [] ∨ flag = true))) ∧
    hasUpdates entries [] false = false := by
  constructor
  · simp [hasUpdates, List.isEmpty_iff]
  · simp [hasUpdates]

/-! ## Second-run behaviour of the rolling window -/

/-- When the fetch has at most 200 ids, truncation keeps all of them and cuts
only the retained prior ids. -/
theorem mergedIds_of_le (entries : List Entry) (prev : List String)
    (h : (entryIds entries).length ≤ 200) :
    mergedIds entries prev =
      entryIds entries ++
        (prev.filter (fun i => decide (i ∉ entryIds entries))).take
          (200 - (entryIds entries).length) := by
  simp only [mergedIds, MAX_STORE]
  rw [List.take_append_eq_append_take, List.take_of_length_le h]

/-- When the fetch has at least 200 ids, the stored window is the first 200
of them and no prior id survives. -/
theorem mergedIds_of_ge (entries : List Entry) (prev : List String)
    (h : 200 ≤ (entryIds entries).length) :
    mergedIds entries prev = (entryIds entries).take 200 := by
  simp only [mergedIds, MAX_STORE]
  exact List.take_append_of_le_length h

/-- Filtering a list by non-membership in itself gives the empty list. -/
theorem filter_not_mem_sub (A B : List String) (hsub : B ⊆ A) :
    B.filter (fun i => decide (i ∉ A)) = [] := by
  rw [List.filter_eq_nil_iff]
  intro a ha
  simp [hsub ha]

/-- A second application of the merge, starting from its own output, is the
identity: the stored window is a fixed point of the state update for an
unchanged feed. -/
theorem mergedIds_idem (entries : List Entry) (prev : List String) :
    mergedIds entries (mergedIds entries prev) = mergedIds entries prev := by
  by_cases h : (entryIds entries).length ≤ 200
  · rw [mergedIds_of_le entries prev h,
      mergedIds_of_le entries _ h]
    rw [List.filter_append,
      filter_not_mem_sub (entryIds entries) (entryIds entries) (fun _ hx => hx)]
    have hkeep :
        ((prev.filter (fun i => decide (i ∉ entryIds entries))).take
            (200 - (entryIds entries).length)).filter
          (fun i => decide (i ∉ entryIds entries)) =
        (prev.filter (fun i => decide (i ∉ entryIds entries))).take
          (200 - (entryIds entries).length) := by
      rw [List.filter_eq_self]
      intro a ha
      have ha' : a ∈ prev.filter (fun i => decide (i ∉ entryIds entries)) :=
        List.take_subset _ _ ha
      exact (List.mem_filter.mp ha').2
    rw [hkeep, List.nil_append, List.take_take, Nat.min_self]
  · push_neg at h
    have h' : 200 ≤ (entryIds entries).length := le_of_lt h
    rw [mergedIds_of_ge entries prev h',
      mergedIds_of_ge entries ((entryIds entries).take 200) h']

/-- Every id of a fetch of at most 200 entries is kept in the merged window,
so a rerun over the unchanged feed finds nothing new. -/
theorem newEntries_after_merge (entries : List Entry) (prev : List String)
    (h : entries.length ≤ 200) :
    newEntries entries (mergedIds entries prev) = [] := by
  have hA : (entryIds entries).length ≤ 200 := by
    simpa [entryIds] using h
  rw [newEntries, List.filter_eq_nil_iff]
  intro e he
  have hmem : e.id ∈ mergedIds entries prev := by
    rw [mergedIds_of_le entries prev hA]
    exact List.mem_append_left _ (List.mem_map_of_mem Entry.id he)
  simp [hmem]

/-- Concrete feed of 201 entries with distinct non-empty ids: one more than
the rolling window holds. -/
def ents201 : List Entry :=
  (List.range 201).map (fun n => ⟨toString n, "", "", ""⟩)

set_option maxRecDepth 10000 in
/-- Claim C4 counterexample: starting from the state a first run over
`ents201` writes, a second run over the same unchanged feed reports
`has_updates = true` (the 201st id was truncated away, so its entry counts as
new again), although `state_changed = false` as claimed. -/
theorem secondRun_counterexample :
    stateChanged ents201 (mergedIds ents201 []) = false ∧
    hasUpdates ents201 (mergedIds ents201 []) false = true := by
  decide

/-- Claim C4 (amended): `state_changed` is true exactly when the merged list
differs from the prior stored list as an ordered list; a second run over an
unchanged feed always has `state_changed = false`, and additionally
`has_updates = false` provided the feed has at most 200 entries. -/
theorem stateChanged_spec (entries : List Entry) (prev : List String)
    (flag : Bool) :
    (stateChanged entries prev = true ↔ mergedIds entries prev ≠ prev) ∧
    stateChanged entries (mergedIds entries prev) = false ∧
    (entries.length ≤ 200 →
      hasUpdates entries (mergedIds entries prev) flag = false) := by
  refine ⟨by simp [stateChanged], ?_, ?_⟩
  · simp [stateChanged, mergedIds_idem]
  · intro h
    simp [hasUpdates, newEntries_after_merge entries prev h]

/-! ## Duplicate-freedom of the stored window -/

/-- Concrete feed containing the same id twice. -/
def dupFeed : List Entry :=
  [⟨"a", "", "", ""⟩, ⟨"a", "", "", ""⟩]

/-- Claim C6 counterexample: a feed that repeats an id makes the stored list
contain duplicates, even starting from an empty (invariant-satisfying) prior
state. -/
theorem mergedIds_nodup_counterexample :
    ¬ (mergedIds dupFeed []).Nodup := by
  decide

/-- Claim C6 (amended): when this run's entry ids are pairwise distinct and
the prior stored list has no duplicates, the merged stored list has no
duplicates (and respects the 200-length cap). -/
theorem mergedIds_nodup (entries : List Entry) (prev : List String)
    (h1 : (entryIds entries).Nodup) (h2 : prev.Nodup) :
    (mergedIds entries prev).Nodup ∧ (mergedIds entries prev).length ≤ 200 := by
  have happ :
      (entryIds entries ++
        prev.filter (fun i => decide (i ∉ entryIds entries))).Nodup := by
    refine List.Nodup.append h1 (h2.filter _) ?_
    intro a ha haf
    have := (List.mem_filter.mp haf).2
    simp only [decide_eq_true_eq] at this
    exact this ha
  refine ⟨List.Nodup.sublist (List.take_sublist _ _) happ, ?_⟩
  simp [mergedIds, MAX_STORE]

/-- Concrete single-entry fetch and disjoint prior id for instantiating the
hypotheses of the amended claims. -/
def entA : Entry := ⟨"a", "t", "l", "p"⟩

/-- Instance of the duplicate-freedom claim at a one-entry feed and a
one-id prior state. -/
theorem mergedIds_nodup_witness :
    (mergedIds [entA] ["b"]).Nodup ∧ (mergedIds [entA] ["b"]).length ≤ 200 :=
  mergedIds_nodup [entA] ["b"] (by decide) (by decide)

/-! ## Position of fresh ids in the stored window -/

set_option maxRecDepth 10000 in
/-- Claim C7 counterexample: with 201 fetched entries of distinct non-empty
ids and an empty prior state, the non-empty id of the 201st entry does not
appear in the merged list at all (it is truncated away). -/
theorem entryIds_in_merged_counterexample :
    "200" ∈ entryIds ents201 ∧ "200" ≠ "" ∧ "200" ∉ mergedIds ents201 [] := by
  decide

/-- Claim C7 (amended): provided at most 200 entries are fetched, every
non-empty id occurring in the entries appears in the merged list, at a
position at or before that of any previously-stored id that is not among
this run's entry ids. -/
theorem entryIds_in_merged (entries : List Entry) (prev : List String)
    (h : entries.length ≤ 200) :
    ∀ x ∈ entryIds entries, x ≠ "" →
      x ∈ mergedIds entries prev ∧
      ∀ y ∈ prev, y ∉ entryIds entries → y ∈ mergedIds entries prev →
        List.indexOf x (mergedIds entries prev) ≤
          List.indexOf y (mergedIds entries prev) := by
  have hA : (entryIds entries).length ≤ 200 := by
    simpa [entryIds] using h
  intro x hx _
  rw [mergedIds_of_le entries prev hA]
  refine ⟨List.mem_append_left _ hx, ?_⟩
  intro y _ hyA _
  rw [List.indexOf_append_of_mem hx, List.indexOf_append_of_not_mem hyA]
  have hxlt : List.indexOf x (entryIds entries) < (entryIds entries).length :=
    List.indexOf_lt_length.mpr hx
  omega

/-- Instance of the position claim: a one-entry feed and a disjoint
previously-stored id, whose retained copy sits after the fresh id. -/
theorem entryIds_in_merged_witness :
    "a" ∈ mergedIds [entA] ["b"] ∧
    ∀ y ∈ ["b"], y ∉ entryIds [entA] → y ∈ mergedIds [entA] ["b"] →
      List.indexOf "a" (mergedIds [entA] ["b"]) ≤
        List.indexOf y (mergedIds [entA] ["b"]) :=
  entryIds_in_merged [entA] ["b"] (by decide) "a" (by decide) (by decide)

/-! ## State persistence -/

/-- A JSON value, the codomain of Python's `json.load` for the data this
script stores: null, strings, arrays and objects suffice. -/
inductive JVal where
  | jnull : JVal
  | jstr : String → JVal
  | jarr : List JVal → JVal
  | jobj : List (String × JVal) → JVal
deriving Repr

/-- The JSON form of the optional `last_checked_iso` field (`None` is dumped
as `null`). -/
def encodeLastChecked : Option String → JVal
  | none => JVal.jnull
  | some s => JVal.jstr s

/-- The JSON object `json.dump` writes for a state value (lines 17-18 and
73-74): `{"ids": [...], "last_checked_iso": ...}`. -/
def encodeState (st : State) : JVal :=
  JVal.jobj [("ids", JVal.jarr (st.ids.map JVal.jstr)),
             ("last_checked_iso", encodeLastChecked st.last_checked_iso)]

/-- Reading a JSON string back. -/
def decodeStr : JVal → Option String
  | JVal.jstr s => some s
  | _ => none

/-- Reading a JSON array of strings back. -/
def decodeStrs : List JVal → Option (List String)
  | [] => some []
  | x :: xs =>
    match decodeStr x, decodeStrs xs with
    | some s, some rest => some (s :: rest)
    | _, _ => none

/-- Reading the optional timestamp back. -/
def decodeLastChecked : JVal → Option (Option String)
  | JVal.jnull => some none
  | JVal.jstr s => some (some s)
  | _ => none

/-- Reading a stored state object back into a `State` value: the script reads
the parsed dictionary's `"ids"` and `"last_checked_iso"` fields (lines 53-55
and 70-74). -/
def decodeState : JVal → Option State
  | JVal.jobj [("ids", JVal.jarr xs), ("last_checked_iso", lc)] =>
    match decodeStrs xs, decodeLastChecked lc with
    | some ids, some l => some ⟨ids, l⟩
    | _, _ => none
  | _ => none

/-- The content of a file a run may read: either text that parses as a JSON
value, or text that does not (on which `json.load` raises). -/
inductive RawFile where
  | valid : JVal → RawFile
  | invalid : String → RawFile

/-- `load_state` (lines 10-14): the default state `{"ids": [],
"last_checked_iso": null}` when no file exists at `path`; otherwise the file
is parsed as JSON, and a file that is not valid JSON raises a parse error
that propagates (the call is not wrapped in any handler).  The file system is
a partial map from paths to raw files. -/
def load_state (fs : String → Option RawFile) (path : String) :
    Except String JVal :=
  match fs path with
  | none =>
    Except.ok (JVal.jobj [("ids", JVal.jarr []), ("last_checked_iso", JVal.jnull)])
  | some (RawFile.valid j) => Except.ok j
  | some (RawFile.invalid msg) => Except.error msg

/-- `save_state` (lines 16-18): serializes the state as JSON, overwriting the
file at `path`. -/
def save_state (fs : String → Option RawFile) (path : String) (st : State) :
    String → Option RawFile :=
  fun p => if p = path then some (RawFile.valid (encodeState st)) else fs p

/-- Encoding then decoding a list of strings is the identity. -/
theorem decodeStrs_encode (l : List String) :
    decodeStrs (l.map JVal.jstr) = some l := by
  induction l with
  | nil => rfl
  | cons s t ih => simp [decodeStrs, decodeStr, ih]

/-- Encoding then decoding a state value is the identity. -/
theorem decodeState_encodeState (st : State) :
    decodeState (encodeState st) = some st := by
  cases st with
  | mk ids lc =>
    cases lc <;>
      simp [encodeState, decodeState, encodeLastChecked, decodeLastChecked,
        decodeStrs_encode]

/-- Claim C5: saving a state and loading from the same path round-trips —
the load succeeds with exactly the JSON value saved, and that value reads
back as a state equal to the one saved. -/
theorem save_load_roundtrip (fs : String → Option RawFile) (path : String)
    (st : State) :
    load_state (save_state fs path st) path = Except.ok (encodeState st) ∧
    decodeState (encodeState st) = some st := by
  refine ⟨?_, decodeState_encodeState st⟩
  simp [load_state, save_state]

/-- Claim C8: loading from a path with no file yields the default state
`{"ids": [], "last_checked_iso": null}`; an existing file is parsed as JSON,
and an invalid file makes the load fail with the propagated parse error. -/
theorem load_state_spec (fs : String → Option RawFile) (path : String) :
    (fs path = none →
      load_state fs path =
        Except.ok (JVal.jobj
          [("ids", JVal.jarr []), ("last_checked_iso", JVal.jnull)])) ∧
    (∀ j, fs path = some (RawFile.valid j) →
      load_state fs path = Except.ok j) ∧
    (∀ msg, fs path = some (RawFile.invalid msg) →
      load_state fs path = Except.error msg) := by
  refine ⟨fun h => ?_, fun j h => ?_, fun msg h => ?_⟩ <;>
    simp [load_state, h]

/-! ## Job outputs -/

/-- `write_output` (lines 40-50): when the `GITHUB_OUTPUT` environment
variable is unset the call returns at once; otherwise the file it names is
appended with a `name<<EOF` delimited block for a multi-line value and with a
`name=value` line otherwise.  The destination file is modelled by its
accumulated contents. -/
def write_output (github_output : Option String) (fileContents : String)
    (name value : String) : String :=
  match github_output with
  | none => fileContents
  | some _ =>
    if value.contains '\n' then
      fileContents ++ (name ++ "<<EOF\n" ++ value ++ "\nEOF\n")
    else
      fileContents ++ (name ++ "=" ++ value ++ "\n")

/-- Claim C9: with no output destination configured, emitting an output
leaves the (absent) destination untouched and is total — a silent no-op;
with a destination, a value containing a newline is appended as a delimited
block and a value without one as a `key=value` line. -/
theorem write_output_spec (out fc nm value : String) :
    write_output none fc nm value = fc ∧
    (value.contains '\n' = true →
      write_output (some out) fc nm value =
        fc ++ (nm ++ "<<EOF\n" ++ value ++ "\nEOF\n")) ∧
    (value.contains '\n' = false →
      write_output (some out) fc nm value =
        fc ++ (nm ++ "=" ++ value ++ "\n")) := by
  refine ⟨rfl, fun h => ?_, fun h => ?_⟩ <;> simp [write_output, h]

/-! ## Empty fetch leaves the ids unchanged -/

/-- Claim C10: with an empty fetched-entries list the merged id list is the
prior id list truncated to 200; so for a prior state with at most 200 ids
the state written back keeps `ids` unchanged and updates only the
`last_checked_iso` field. -/
theorem emptyFetch_frame (st : State) (now : String) :
    mergedIds [] st.ids = st.ids.take 200 ∧
    (st.ids.length ≤ 200 →
      updateState [] st now = { ids := st.ids, last_checked_iso := some now }) := by
  have hm : mergedIds [] st.ids = st.ids.take 200 := by
    simp [mergedIds, entryIds, MAX_STORE]
  refine ⟨hm, fun h => ?_⟩
  simp [updateState, hm, List.take_of_length_le h]
